import Mathlib

/-!
# Verification of the Kindle highlights reading-companion core

A shallow embedding of the repository's core (the Kindle clippings parser in
`src/parser/kindleParser.ts` and the analysis layer `HighlightTools` in the
unnamed tools source file) together with proofs about the claims of the
specification.

Strings are modelled as `List Char` (`Str`), JavaScript `Date` values as `Nat`
timestamps (milliseconds since the epoch), and the locale-aware `new Date(s)`
string-to-date conversion as an explicit function parameter `pd : Str → Nat`,
since its result is irrelevant to every property proved here.
-/

/-- Strings of the embedded program: JavaScript strings as lists of characters. -/
abbrev Str := List Char

/-- Shorthand for turning a Lean string literal into the embedded string type. -/
def str (s : String) : Str := s.data

/-- JavaScript whitespace (the characters of the `\s` class and `trim` that occur
in ASCII text): space, tab, newline, carriage return, vertical tab, form feed. -/
def jsWs (c : Char) : Bool :=
  c == ' ' || c == '\t' || c == '\n' || c == '\r' || c == '\x0b' || c == '\x0c'

/-- `String.prototype.trim`: drop whitespace from both ends. -/
def trimStr (s : Str) : Str :=
  ((s.dropWhile jsWs).reverse.dropWhile jsWs).reverse

/-- `String.prototype.toLowerCase` restricted to the ASCII data handled here. -/
def lowerStr (s : Str) : Str := s.map Char.toLower

/-- Does `s` have exactly the pattern `pat` starting at index `i`? -/
def matchAt (pat s : Str) (i : Nat) : Bool :=
  (s.drop i).take pat.length == pat

/-- `String.prototype.includes`: `pat` occurs somewhere in `s`
(always true for the empty pattern, as in JavaScript). -/
def containsSubstr (pat s : Str) : Bool :=
  (List.range (s.length + 1)).any (fun i => matchAt pat s i)

/-- Index of the first occurrence of `pat` in `s` (JavaScript `indexOf`). -/
def findSubIdx (pat s : Str) : Option Nat :=
  (List.range (s.length + 1)).find? (fun i => matchAt pat s i)

/-- `String.prototype.split` on a non-empty literal separator, with explicit
fuel (the string length bounds the number of separator occurrences). -/
def splitOnAux (sep : Str) : Nat → Str → List Str
  | 0, s => [s]
  | fuel + 1, s =>
    match findSubIdx sep s with
    | none => [s]
    | some i =>
      if sep.length == 0 then [s]
      else s.take i :: splitOnAux sep fuel (s.drop (i + sep.length))

/-- `String.prototype.split` on a literal separator string. -/
def splitOnStr (sep s : Str) : List Str :=
  splitOnAux sep (s.length + 1) s

/-- `String.prototype.split` on a single character (used for `'\n'` and `' '`). -/
def splitChar (c : Char) (s : Str) : List Str :=
  go [] s
where
  /-- Accumulate the current (reversed) segment while scanning. -/
  go (cur : Str) : Str → List Str
    | [] => [cur.reverse]
    | x :: xs => if x == c then cur.reverse :: go [] xs else go (x :: cur) xs

/-- The word characters of the regular-expression class `\w` / the `\b` anchor:
ASCII letters, digits and underscore. -/
def isWordChar (c : Char) : Bool := c.isAlphanum || c == '_'

/-- Is the character at index `i` of `s` a word character (out of range = no)? -/
def wordCharAt (s : Str) (i : Nat) : Bool :=
  match s.get? i with
  | some c => isWordChar c
  | none => false

/-- The regular-expression anchor `\b` holds at position `i` of `s`: the
word-character status changes between the character before `i` and the one at `i`. -/
def wordBoundaryAt (s : Str) (i : Nat) : Bool :=
  if i == 0 then wordCharAt s 0
  else wordCharAt s (i - 1) != wordCharAt s i

/-- Match of the regular expression `\b<query-escaped-literally>\b` anywhere in `s`:
the literal `pat` occurs at some position with word boundaries on both sides.
This models the `wholeWord` branch of `searchHighlights`, where all
metacharacters of the query are escaped before the boundary anchors are added. -/
def wholeWordMatch (pat s : Str) : Bool :=
  (List.range (s.length + 1)).any
    (fun i => matchAt pat s i && wordBoundaryAt s i && wordBoundaryAt s (i + pat.length))

/-- Clipping type: the `'highlight' | 'note' | 'bookmark'` union of the source. -/
inductive ClipType where
  | highlight
  | note
  | bookmark
deriving DecidableEq

/-- `Highlight` record of `src/types/highlight.ts`.  `dateAdded` is a timestamp. -/
structure Highlight where
  title : Str
  author : Option Str
  content : Str
  location : Str
  page : Option Str
  dateAdded : Nat
  type : ClipType
  tags : List Str
  userNotes : Option Str
deriving DecidableEq

/-- `BookHighlights` record of `src/types/highlight.ts`. -/
structure BookHighlights where
  title : Str
  author : Option Str
  highlights : List Highlight
deriving DecidableEq

/-- `HighlightLibrary` record of `src/types/highlight.ts`. -/
structure HighlightLibrary where
  books : List BookHighlights
  totalHighlights : Nat
  lastUpdated : Nat
deriving DecidableEq

/-- Options of `searchHighlights`.  Absent (`undefined`) optional array fields are
`none`; JavaScript boolean truthiness lets the two flags default to `false`. -/
structure SearchOptions where
  caseSensitive : Bool
  wholeWord : Bool
  includeBooks : Option (List Str)
  excludeBooks : Option (List Str)
  highlightTypes : Option (List ClipType)
deriving DecidableEq

/-- The all-defaults search options (`{}` at a JavaScript call site). -/
def defaultSearch : SearchOptions :=
  { caseSensitive := false, wholeWord := false,
    includeBooks := none, excludeBooks := none, highlightTypes := none }

/-- Does this highlight pass the `highlightTypes` filter of `searchHighlights`?
The source skips a highlight only when the option is present, non-empty and
does not contain the highlight's type. -/
def typePasses (types : Option (List ClipType)) (h : Highlight) : Bool :=
  match types with
  | some l => !(l.length > 0 && !(l.contains h.type))
  | none => true

/-- The per-highlight content match of `searchHighlights`: case folding applied
to both sides unless `caseSensitive`, then either a whole-word regular-expression
test or a plain substring test. -/
def contentMatches (options : SearchOptions) (searchQuery : Str) (h : Highlight) : Bool :=
  let content := if options.caseSensitive then h.content else lowerStr h.content
  if options.wholeWord then wholeWordMatch searchQuery content
  else containsSubstr searchQuery content

/-- `HighlightTools.searchHighlights`: filter books by include/exclude lists,
then collect, in book-then-highlight order, the highlights passing the type
filter whose content matches the query. -/
def searchHighlights (library : HighlightLibrary) (query : Str)
    (options : SearchOptions) : List Highlight :=
  let searchQuery := if options.caseSensitive then query else lowerStr query
  let books1 :=
    match options.includeBooks with
    | some l => if l.length > 0 then library.books.filter (fun (b : BookHighlights) => l.contains b.title)
                else library.books
    | none => library.books
  let books2 :=
    match options.excludeBooks with
    | some l => if l.length > 0 then books1.filter (fun (b : BookHighlights) => !(l.contains b.title))
                else books1
    | none => books1
  (books2.map (fun (book : BookHighlights) =>
    book.highlights.filter (fun h =>
      typePasses options.highlightTypes h && contentMatches options searchQuery h))).flatten

/-- All highlights of a library in book-then-highlight order. -/
def allHighlights (library : HighlightLibrary) : List Highlight :=
  (library.books.map (fun b => b.highlights)).flatten

/-- The default keyword-to-tag table of `autoTagHighlights` (the `quote` row of
the source contains the double-quote character twice). -/
def defaultTags : List (Str × List Str) :=
  [ (str "definition", [str "means", str "is defined as", str "refers to", str "definition"]),
    (str "example", [str "example", str "instance", str "illustration", str "case study"]),
    (str "quote", [str "said", str "according to", str "quote", str "\"", str "\""]),
    (str "important", [str "important", str "crucial", str "essential", str "significant"]),
    (str "concept", [str "concept", str "principle", str "theory", str "framework", str "model"]) ]

/-- The object spread `{ ...defaultTags, ...customTags }`: default keys in table
order with custom keyword lists replacing default ones, then the custom keys not
present in the default table, in their own order. -/
def allTags (customTags : List (Str × List Str)) : List (Str × List Str) :=
  defaultTags.map (fun p =>
    match customTags.find? (fun c => c.1 == p.1) with
    | some c => (p.1, c.2)
    | none => p) ++
  customTags.filter (fun c => !(defaultTags.any (fun p => p.1 == c.1)))

/-- The tag-table scan of `autoTagHighlights` over one highlight's lower-cased
content: for each table row in order, if some keyword of the row occurs
(case-folded) in the content, append the row's tag unless already present. -/
def applyTagTable (table : List (Str × List Str)) (contentLower : Str)
    (tags : List Str) : List Str :=
  table.foldl (fun acc p =>
    if p.2.any (fun kw => containsSubstr (lowerStr kw) contentLower) then
      if acc.contains p.1 then acc else acc ++ [p.1]
    else acc) tags

/-- The per-highlight step of `autoTagHighlights`: a highlight that already has
tags is skipped; otherwise the tag table is scanned against its content. -/
def autoTagHighlight (table : List (Str × List Str)) (h : Highlight) : Highlight :=
  if h.tags.length > 0 then h
  else { h with tags := applyTagTable table (lowerStr h.content) h.tags }

/-- `HighlightTools.autoTagHighlights`: merge the default and custom tag tables
and scan every highlight of every book (the source mutates `tags` in place and
returns the same library; the embedding returns the updated library value). -/
def autoTagHighlights (library : HighlightLibrary)
    (customTags : List (Str × List Str)) : HighlightLibrary :=
  { library with
    books := library.books.map (fun b =>
      { b with highlights := b.highlights.map (autoTagHighlight (allTags customTags)) }) }

/-- A highlight with its `tags` field cleared (all other fields intact). -/
def clearTags (h : Highlight) : Highlight := { h with tags := [] }

/-- A library with every highlight's `tags` field cleared: the part of the
library that the auto-tagger is not allowed to touch. -/
def clearLibTags (library : HighlightLibrary) : HighlightLibrary :=
  { library with
    books := library.books.map (fun b =>
      { b with highlights := b.highlights.map clearTags }) }

/-- The `TITLE_AUTHOR_REGEX` pattern `^(.+) \((.+)\)$` of `KindleParser`: does it
match with the first (greedy) group of length `k`?  The line must have `" ("` at
index `k`, end with `')'`, and both groups must be non-empty. -/
def titleAuthorMatchAt (s : Str) (k : Nat) : Bool :=
  1 ≤ k && k + 4 ≤ s.length &&
  s.get? k == some ' ' && s.get? (k + 1) == some '(' &&
  s.get? (s.length - 1) == some ')'

/-- Execute `TITLE_AUTHOR_REGEX` on a line: the greedy first group picks the
largest split point; returns the trimmed (title, author) captures. -/
def titleAuthorExec (s : Str) : Option (Str × Str) :=
  match (List.range s.length).reverse.find? (fun k => titleAuthorMatchAt s k) with
  | some k => some (trimStr (s.take k), trimStr ((s.drop (k + 2)).take (s.length - 1 - (k + 2))))
  | none => none

/-- The digit-range capture `\d+-?\d*` starting at a digit: a maximal digit run,
an optional hyphen, then another maximal (possibly empty) digit run. -/
def digitRange (s : Str) : Str :=
  let d1 := s.takeWhile Char.isDigit
  match s.drop d1.length with
  | '-' :: rest => d1 ++ '-' :: rest.takeWhile Char.isDigit
  | _ => d1

/-- Is the character at index `i` of `s` an ASCII digit? -/
def digitAt (s : Str) (i : Nat) : Bool :=
  match s.get? i with
  | some c => c.isDigit
  | none => false

/-- Leftmost match of `<lit>(\d+-?\d*)` in `s`: the literal must be followed by at
least one digit; returns the captured digit range. -/
def litDigitsExec (lit s : Str) : Option Str :=
  match (List.range (s.length + 1)).find?
      (fun i => matchAt lit s i && digitAt s (i + lit.length)) with
  | some i => some (digitRange (s.drop (i + lit.length)))
  | none => none

/-- Case-insensitive variant (the `/page (\d+-?\d*)/i` pattern): the literal is
matched against the case-folded line; the digit capture is case-invariant. -/
def litDigitsExecCI (lit s : Str) : Option Str :=
  litDigitsExec (lowerStr lit) (lowerStr s)

/-- `DATE_REGEX` `Added on (.+)$`: the text after the leftmost `"Added on "`
(there must be at least one following character). -/
def addedOnExec (s : Str) : Option Str :=
  match (List.range (s.length + 1)).find?
      (fun i => matchAt (str "Added on ") s i && i + 9 < s.length) with
  | some i => some (s.drop (i + 9))
  | none => none

/-- `KindleParser.parseEntry`.  `pd` models the `new Date(string)` conversion and
`now` the current wall-clock timestamp `new Date()`. -/
def parseEntry (pd : Str → Nat) (now : Nat) (entry : Str) : Option Highlight :=
  let ls := ((splitChar '\n' entry).map trimStr).filter (fun l => l.length > 0)
  if ls.length < 2 then none
  else
    let titleLine := ls.headD []
    let meta := (ls.drop 1).headD []
    let ta := titleAuthorExec titleLine
    let title := match ta with
      | some p => p.1
      | none => titleLine
    let author := match ta with
      | some p => some p.2
      | none => none
    let type : ClipType :=
      if containsSubstr (str "Your Note") meta then .note
      else if containsSubstr (str "Your Bookmark") meta then .bookmark
      else .highlight
    let location := match litDigitsExec (str "Location ") meta with
      | some cap => cap
      | none => str "unknown"
    let page := litDigitsExecCI (str "page ") meta
    let dateStr := match addedOnExec meta with
      | some cap => cap
      | none => []
    let dateAdded := if dateStr.length > 0 then pd dateStr else now
    some { title := title, author := author,
           content := (ls.drop 2).intersperse [ '\n' ] |>.flatten,
           location := location, page := page, dateAdded := dateAdded,
           type := type, tags := [], userNotes := none }

/-- One step of the title-keyed grouping of `parseClippings`: append the
highlight to the existing book of the same title, or start a new book (with the
author of this first-encountered highlight) at the end. -/
def addToGroups (groups : List BookHighlights) (h : Highlight) : List BookHighlights :=
  if groups.any (fun b => b.title == h.title) then
    groups.map (fun b =>
      if b.title == h.title then { b with highlights := b.highlights ++ [h] } else b)
  else
    groups ++ [{ title := h.title, author := h.author, highlights := [h] }]

/-- The list of successfully parsed highlights of `parseClippings`, in encounter
order: split on the ten-equals separator, drop blank segments, parse each
trimmed segment (the `try`/`catch` of the source is dead in the embedding:
`parseEntry` is total). -/
def parsedHighlights (pd : Str → Nat) (now : Nat) (fileContent : Str) : List Highlight :=
  (((splitOnStr (str "==========") fileContent).filter
      (fun e => (trimStr e).length > 0)).filterMap
    (fun e => parseEntry pd now (trimStr e)))

/-- `KindleParser.parseClippings`: parse all entries, group them by title in
first-seen order, and build the library with `totalHighlights` equal to the
number of parsed highlights and `lastUpdated` the current time. -/
def parseClippings (pd : Str → Nat) (now : Nat) (fileContent : Str) : HighlightLibrary :=
  let highlights := parsedHighlights pd now fileContent
  { books := highlights.foldl addToGroups [],
    totalHighlights := highlights.length,
    lastUpdated := now }

/-- The chunk size `Math.floor(sortedHighlights.length / 5)` of
`createBookSummary`. -/
def chapterBreakpoint (n : Nat) : Nat := n / 5

/-- The loop counter of the section loop of `createBookSummary`
(`for (let i = 0; i < sortedHighlights.length; i += chapterBreakpoint)`):
its value after `k` executed iterations. -/
def chapterLoopIndex (step k : Nat) : Nat := step * k

/-- The section loop of `createBookSummary` terminates on a book with `n`
highlights exactly when some number of iterations drives the counter up to `n`. -/
def summaryLoopTerminates (n : Nat) : Prop :=
  ∃ k, n ≤ chapterLoopIndex (chapterBreakpoint n) k

/-- JavaScript truthiness of an optional string (`undefined` and `""` are falsy). -/
def truthyStr (s : Option Str) : Bool :=
  match s with
  | some v => v.length > 0
  | none => false

/-- Render a clipping type the way the source's string union prints. -/
def typeStr (t : ClipType) : Str :=
  match t with
  | .highlight => str "highlight"
  | .note => str "note"
  | .bookmark => str "bookmark"

/-- `Array.prototype.join` on strings with a separator. -/
def joinSep (sep : Str) (parts : List Str) : Str :=
  (parts.intersperse sep).flatten

/-- The decimal digits of a natural number. -/
def natStr (n : Nat) : Str := (Nat.toDigits 10 n)

/-- Left-pad a numeral with zeros to the given width. -/
def padZero (width n : Nat) : Str :=
  List.replicate (width - (natStr n).length) '0' ++ natStr n

/-- Civil date from a day count since 1970-01-01 (proleptic Gregorian calendar,
Hinnant's era-based algorithm restricted to non-negative days). -/
def civilFromDays (z0 : Nat) : Nat × Nat × Nat :=
  let z := z0 + 719468
  let era := z / 146097
  let doe := z % 146097
  let yoe := (doe - doe / 1460 + doe / 36524 - doe / 146096) / 365
  let y := yoe + era * 400
  let doy := doe - (365 * yoe + yoe / 4 - yoe / 100)
  let mp := (5 * doy + 2) / 153
  let d := doy - (153 * mp + 2) / 5 + 1
  let m := if mp < 10 then mp + 3 else mp - 9
  (if m ≤ 2 then y + 1 else y, m, d)

/-- `Date.prototype.toISOString` for a non-negative millisecond timestamp:
`YYYY-MM-DDTHH:mm:ss.sssZ`. -/
def toISOString (ms : Nat) : Str :=
  let days := ms / 86400000
  let rem := ms % 86400000
  let ymd := civilFromDays days
  padZero 4 ymd.1 ++ str "-" ++ padZero 2 ymd.2.1 ++ str "-" ++ padZero 2 ymd.2.2 ++
  str "T" ++ padZero 2 (rem / 3600000) ++ str ":" ++ padZero 2 (rem / 60000 % 60) ++
  str ":" ++ padZero 2 (rem / 1000 % 60) ++ str "." ++ padZero 3 (rem % 1000) ++ str "Z"

/-- The per-highlight metadata line of the markdown export: the present members
of {location, page, tags} joined by `" | "`. -/
def markdownMetadata (h : Highlight) : Str :=
  let metadata :=
    (if h.location.length > 0 then [str "Location: " ++ h.location] else []) ++
    (if truthyStr h.page then [str "Page: " ++ (h.page.getD [])] else []) ++
    (if h.tags.length > 0 then [str "Tags: " ++ joinSep (str ", ") h.tags] else [])
  if metadata.length > 0 then str "*" ++ joinSep (str " | ") metadata ++ str "*\n\n"
  else []

/-- `HighlightTools.exportToMarkdown`, grouped-by-book and flat variants. -/
def exportToMarkdown (books : List BookHighlights) (groupByBook : Bool) : Str :=
  str "# My Kindle Highlights\n\n" ++
  (if groupByBook then
    (books.map (fun b =>
      str "## " ++ b.title ++ str "\n" ++
      (if truthyStr b.author then str "*By " ++ b.author.getD [] ++ str "*\n\n" else []) ++
      (b.highlights.map (fun h =>
        str "> " ++ h.content ++ str "\n\n" ++ markdownMetadata h)).flatten ++
      str "\n---\n\n")).flatten
  else
    (books.map (fun b =>
      (b.highlights.map (fun h =>
        str "> " ++ h.content ++ str "\n\n" ++
        str "*From: " ++ b.title ++
        (if truthyStr b.author then str " by " ++ b.author.getD [] else []) ++
        str "*\n\n" ++ markdownMetadata h ++ str "---\n\n")).flatten)).flatten)

/-- The CSV escaping of `exportToCsv`: double internal double quotes, then
replace newlines by spaces. -/
def csvEscape (s : Str) : Str :=
  (s.flatMap (fun c => if c == '"' then ['"', '"'] else [c])).map
    (fun c => if c == '\n' then ' ' else c)

/-- One CSV data row of `exportToCsv`. -/
def csvRow (b : BookHighlights) (h : Highlight) : Str :=
  joinSep (str ",")
    [ str "\"" ++ csvEscape b.title ++ str "\"",
      (match b.author with
       | some a => if a.length > 0 then str "\"" ++ csvEscape a ++ str "\"" else []
       | none => []),
      str "\"" ++ csvEscape h.content ++ str "\"",
      h.location,
      h.page.getD [],
      toISOString h.dateAdded,
      typeStr h.type,
      str "\"" ++ joinSep (str ", ") h.tags ++ str "\"" ] ++ str "\n"

/-- `HighlightTools.exportToCsv`: a header row then one row per highlight. -/
def exportToCsv (books : List BookHighlights) : Str :=
  str "Book Title,Author,Content,Location,Page,Date Added,Type,Tags\n" ++
  (books.map (fun b => (b.highlights.map (fun h => csvRow b h)).flatten)).flatten

/-- One hexadecimal digit. -/
def hexDigit (n : Nat) : Char :=
  if n < 10 then Char.ofNat (48 + n) else Char.ofNat (87 + n)

/-- `JSON.stringify` escaping of one character inside a string literal. -/
def jsonEscapeChar (c : Char) : Str :=
  if c == '"' then ['\\', '"']
  else if c == '\\' then ['\\', '\\']
  else if c == '\n' then ['\\', 'n']
  else if c == '\t' then ['\\', 't']
  else if c == '\r' then ['\\', 'r']
  else if c == '\x08' then ['\\', 'b']
  else if c == '\x0c' then ['\\', 'f']
  else if c.toNat < 32 then ['\\', 'u', '0', '0', hexDigit (c.toNat / 16), hexDigit (c.toNat % 16)]
  else [c]

/-- A JSON string literal with its double quotes. -/
def jsonStr (s : Str) : Str :=
  ['"'] ++ s.flatMap jsonEscapeChar ++ ['"']

/-- Indentation of `JSON.stringify(v, null, 2)` at nesting depth `d`. -/
def jsonIndent (d : Nat) : Str := List.replicate (2 * d) ' '

/-- A pretty-printed JSON object at depth `d`, the values already rendered:
the layout `JSON.stringify(v, null, 2)` produces.  The exported structure has a
fixed nesting shape, so the printer is written level by level. -/
def renderObj (d : Nat) (fields : List (Str × Str)) : Str :=
  match fields with
  | [] => str "\x7b\x7d"
  | _ => ['\x7b', '\n'] ++
      joinSep (str ",\n")
        (fields.map (fun f => jsonIndent (d + 1) ++ jsonStr f.1 ++ str ": " ++ f.2)) ++
      str "\n" ++ jsonIndent d ++ ['\x7d']

/-- A pretty-printed JSON array at depth `d`, the items already rendered. -/
def renderArr (d : Nat) (items : List Str) : Str :=
  match items with
  | [] => str "[]"
  | _ => str "[\n" ++
      joinSep (str ",\n") (items.map (fun it => jsonIndent (d + 1) ++ it)) ++
      str "\n" ++ jsonIndent d ++ str "]"

/-- The JSON rendering of a highlight at depth `d` (`undefined` optional fields
are omitted by `JSON.stringify`; the `Date` serializes as its ISO string). -/
def highlightJson (d : Nat) (h : Highlight) : Str :=
  renderObj d ([(str "title", jsonStr h.title)] ++
    (match h.author with
     | some a => [(str "author", jsonStr a)]
     | none => []) ++
    [(str "content", jsonStr h.content),
     (str "location", jsonStr h.location)] ++
    (match h.page with
     | some p => [(str "page", jsonStr p)]
     | none => []) ++
    [(str "dateAdded", jsonStr (toISOString h.dateAdded)),
     (str "type", jsonStr (typeStr h.type)),
     (str "tags", renderArr (d + 1) (h.tags.map jsonStr))] ++
    (match h.userNotes with
     | some u => [(str "userNotes", jsonStr u)]
     | none => []))

/-- The JSON rendering of a `BookHighlights` value at depth `d`. -/
def bookJson (d : Nat) (b : BookHighlights) : Str :=
  renderObj d ([(str "title", jsonStr b.title)] ++
    (match b.author with
     | some a => [(str "author", jsonStr a)]
     | none => []) ++
    [(str "highlights", renderArr (d + 1) (b.highlights.map (highlightJson (d + 2))))])

/-- The `json` branch of `exportHighlights`: `JSON.stringify` (two-space indent)
of the filtered books with a recomputed count and a fresh timestamp. -/
def exportToJson (now : Nat) (books : List BookHighlights) : Str :=
  renderObj 0
    [ (str "books", renderArr 1 (books.map (bookJson 2))),
      (str "totalHighlights",
        natStr (books.foldl (fun sum b => sum + b.highlights.length) 0)),
      (str "lastUpdated", jsonStr (toISOString now)) ]

/-- Options of `exportHighlights`. -/
structure ExportOptions where
  includeBooks : Option (List Str)
  includeTags : Option (List Str)
  groupByBook : Option Bool
deriving DecidableEq

/-- The all-defaults export options (`{}` at a JavaScript call site). -/
def defaultExport : ExportOptions :=
  { includeBooks := none, includeTags := none, groupByBook := none }

/-- `HighlightTools.exportHighlights`: filter books and highlights, then
dispatch on the format string; an unknown format throws
`Unsupported export format: <format>` (modelled by `Except.error`). -/
def exportHighlights (now : Nat) (library : HighlightLibrary) (format : Str)
    (options : ExportOptions) : Except Str Str :=
  let books1 :=
    match options.includeBooks with
    | some l => if l.length > 0 then library.books.filter (fun (b : BookHighlights) => l.contains b.title)
                else library.books
    | none => library.books
  let booksToExport :=
    match options.includeTags with
    | some l =>
      if l.length > 0 then
        books1.map (fun b =>
          { b with highlights := b.highlights.filter (fun h =>
              h.tags.any (fun tag => l.contains tag)) })
      else books1
    | none => books1
  if format == str "markdown" then
    .ok (exportToMarkdown booksToExport (options.groupByBook.getD true))
  else if format == str "csv" then
    .ok (exportToCsv booksToExport)
  else if format == str "json" then
    .ok (exportToJson now booksToExport)
  else
    .error (str "Unsupported export format: " ++ format)

/-- Is the character at index `i` of `s` whitespace (out of range = no)? -/
def wsAtIdx (s : Str) (i : Nat) : Bool :=
  match s.get? i with
  | some c => jsWs c
  | none => false

/-- Length of the maximal whitespace run of `s` starting at index `i`. -/
def wsRunLen (s : Str) (i : Nat) : Nat :=
  ((s.drop i).takeWhile jsWs).length

/-- Match of the flashcard split pattern `\s+is\s+|\s+are\s+` starting at index
`i`: a non-empty whitespace run (which, being followed by a letter, the greedy
`\s+` must consume whole), then `is` or `are`, then at least one more
whitespace character. -/
def isAreMatchAt (s : Str) (i : Nat) : Bool :=
  wsAtIdx s i &&
  ((matchAt (str "is") s (i + wsRunLen s i) && wsAtIdx s (i + wsRunLen s i + 2)) ||
   (matchAt (str "are") s (i + wsRunLen s i) && wsAtIdx s (i + wsRunLen s i + 3)))

/-- Start index of the leftmost match of `\s+is\s+|\s+are\s+` in `s`: the text
before it is `parts[0]` of the source's `content.split(...)`. -/
def isAreSplitIdx (s : Str) : Option Nat :=
  (List.range s.length).find? (fun i => isAreMatchAt s i)

/-- Rule 1 of the flashcard question generator: `parts[0]` of the split, trimmed,
inside `What is …?` (when the split produces at least two parts; the source
leaves the question empty otherwise). -/
def rule1Question (content : Str) : Str :=
  match isAreSplitIdx content with
  | some i => str "What is " ++ trimStr (content.take i) ++ str "?"
  | none => []

/-- The stop-word list of the fill-in-the-blank rule. -/
def commonWords : List Str :=
  [str "the", str "a", str "an", str "and", str "or", str "but",
   str "in", str "on", str "at", str "to", str "for"]

/-- `word.replace(/[.,;:!?]/, '')`: remove the first punctuation character
(the regular expression has no global flag). -/
def stripFirstPunct : Str → Str
  | [] => []
  | c :: cs =>
    if c == '.' || c == ',' || c == ';' || c == ':' || c == '!' || c == '?' then cs
    else c :: stripFirstPunct cs

/-- The scan for the longest non-common word: returns the stored original word
and its index.  As in the source, each candidate is cleaned (first punctuation
character removed, lower-cased) for the stop-word test and the length
comparison, while the stored current best is the original token. -/
def pickLongest (words : List Str) : Str × Option Nat :=
  words.enum.foldl (fun acc p =>
    let word := lowerStr (stripFirstPunct p.2)
    if !(commonWords.contains word) && word.length > acc.1.length then (p.2, some p.1)
    else acc) ([], none)

/-- Rule 3 of the flashcard question generator: with at least 7 tokens, blank
out the longest non-common word and rejoin; empty question otherwise. -/
def rule3Question (content : Str) : Str :=
  let words := splitChar ' ' content
  if words.length ≥ 7 then
    match (pickLongest words).2 with
    | some i => joinSep (str " ") (words.set i (str "________"))
    | none => []
  else []

/-- The question-generation strategy of `createFlashcards`, first applicable
rule wins; an empty string means no flashcard. -/
def generateQuestion (h : Highlight) : Str :=
  if containsSubstr (str " is ") h.content || containsSubstr (str " are ") h.content then
    rule1Question h.content
  else if h.tags.contains (str "quote") then
    str "Who said: \"" ++ h.content ++ str "\"?"
  else
    rule3Question h.content

/-- A flashcard: question, answer and source attribution. -/
structure Flashcard where
  question : Str
  answer : Str
  source : Str
deriving DecidableEq

/-- The source attribution `<title>` or `<title> by <author>`. -/
def sourceOf (b : BookHighlights) : Str :=
  b.title ++ (if truthyStr b.author then str " by " ++ b.author.getD [] else [])

/-- Options of `createFlashcards`. -/
structure FlashcardOptions where
  onlyTagged : Option (List Str)
  maxCards : Option Nat
deriving DecidableEq

/-- The all-defaults flashcard options (`{}` at a JavaScript call site). -/
def defaultFlashcards : FlashcardOptions :=
  { onlyTagged := none, maxCards := none }

/-- The per-highlight step of `createFlashcards`: tag filter, minimum token
count, then the question generator; a card is produced only for a non-empty
question. -/
def cardFor (onlyTagged : Option (List Str)) (b : BookHighlights) (h : Highlight) :
    Option Flashcard :=
  let skipTag :=
    match onlyTagged with
    | some l => l.length > 0 && !(h.tags.any (fun tag => l.contains tag))
    | none => false
  if skipTag then none
  else if (splitChar ' ' h.content).length < 5 then none
  else
    let question := generateQuestion h
    if question.length > 0 then
      some { question := question, answer := h.content, source := sourceOf b }
    else none

/-- The `maxCards` stop test (`options.maxCards && count >= options.maxCards`;
a zero maximum is falsy in JavaScript and imposes no limit). -/
def maxReached (maxCards : Option Nat) (count : Nat) : Bool :=
  match maxCards with
  | some m => !(m == 0) && count ≥ m
  | none => false

/-- The inner highlight loop of `createFlashcards`, with its early break once
`maxCards` is reached. -/
def processHighlights (opts : FlashcardOptions) (b : BookHighlights)
    (acc : List Flashcard) : List Highlight → List Flashcard
  | [] => acc
  | h :: rest =>
    match cardFor opts.onlyTagged b h with
    | none => processHighlights opts b acc rest
    | some c =>
      if maxReached opts.maxCards (acc ++ [c]).length then acc ++ [c]
      else processHighlights opts b (acc ++ [c]) rest

/-- The outer book loop of `createFlashcards`, with its early break once
`maxCards` is reached. -/
def processBooks (opts : FlashcardOptions) (acc : List Flashcard) :
    List BookHighlights → List Flashcard
  | [] => acc
  | b :: rest =>
    let acc2 := processHighlights opts b acc b.highlights
    if maxReached opts.maxCards acc2.length then acc2
    else processBooks opts acc2 rest

/-- `HighlightTools.createFlashcards`. -/
def createFlashcards (library : HighlightLibrary) (opts : FlashcardOptions) :
    List Flashcard :=
  processBooks opts [] library.books

/-- Sum of the per-book highlight counts: the quantity `totalHighlights` is
claimed to equal. -/
def sumHighlights (bs : List BookHighlights) : Nat :=
  (bs.map (fun b => b.highlights.length)).sum

/-- Invariant of the title-keyed grouping: every highlight sits in the book of
its own title, and book titles are pairwise distinct. -/
def GroupsInv (gs : List BookHighlights) : Prop :=
  (∀ b ∈ gs, ∀ h ∈ b.highlights, h.title = b.title) ∧
  (gs.map (fun b => b.title)).Nodup

/-- The rule-1 flashcard of a highlight: question built from the text before
the first `\s+is\s+|\s+are\s+` match, answer the full content. -/
def rule1Card (b : BookHighlights) (h : Highlight) : Flashcard :=
  { question := str "What is " ++ trimStr (h.content.take ((isAreSplitIdx h.content).getD 0)) ++ str "?",
    answer := h.content,
    source := sourceOf b }

/-- The raw input of Scenario 1 of the specification. -/
def c7input : Str :=
  str "Book Title (Author Name)\nYour Highlight | Location 12-13 | Added on Monday, January 1, 2024 10:00:00 AM\n\nThis is the highlighted text.\n=========="

/-- The Scenario 1 highlight as parsed with date conversion `pd` sending every
string to `0`. -/
def c7highlight : Highlight :=
  { title := str "Book Title", author := some (str "Author Name"),
    content := str "This is the highlighted text.",
    location := str "12-13", page := none, dateAdded := 0,
    type := .highlight, tags := [], userNotes := none }

/-- An empty library. -/
def emptyLib : HighlightLibrary :=
  { books := [], totalHighlights := 0, lastUpdated := 0 }

/-- A concrete highlight used by several concrete inputs below. -/
def hBase : Highlight :=
  { title := str "B", author := some (str "A"), content := str "the cat sat",
    location := str "unknown", page := none, dateAdded := 0,
    type := .highlight, tags := [], userNotes := none }

/-- One-book, one-highlight library around `hBase`. -/
def libBase : HighlightLibrary :=
  { books := [{ title := str "B", author := some (str "A"), highlights := [hBase] }],
    totalHighlights := 1, lastUpdated := 0 }

/-- A manually tagged highlight (for the untouched-tags part of the auto-tag claim). -/
def hTagged : Highlight := { hBase with tags := [str "manual"] }

/-- An untagged highlight whose content `"Democracy is defined as rule by the
people"` triggers the default `definition` keywords. -/
def hDemo : Highlight :=
  { hBase with content := str "Democracy is defined as rule by the people" }

/-- Library holding the tagged and the untagged highlight. -/
def libDemo : HighlightLibrary :=
  { books := [{ title := str "B", author := some (str "A"), highlights := [hDemo, hTagged] }],
    totalHighlights := 2, lastUpdated := 0 }

/-- The Scenario 5 highlight: `"Gravity is the force that attracts objects"`. -/
def hGravity : Highlight :=
  { hBase with content := str "Gravity is the force that attracts objects" }

/-- The book holding `hGravity`. -/
def bookGravity : BookHighlights :=
  { title := str "B", author := some (str "A"), highlights := [hGravity] }

/-- Library for the Scenario 5 flashcard witness. -/
def libGravity : HighlightLibrary :=
  { books := [bookGravity], totalHighlights := 1, lastUpdated := 0 }

/-- A highlight whose content `"Alpha\tare beta x is y"` separates the literal
`" is "` reading of rule 1 from the source's `\s+is\s+|\s+are\s+` split: the
tab-delimited `are` matches the split pattern before the literal `" is "`. -/
def hTab : Highlight := { hBase with content := str "Alpha\tare beta x is y" }

/-- The book holding `hTab`. -/
def bookTab : BookHighlights :=
  { title := str "B", author := some (str "A"), highlights := [hTab] }

/-- Library for the rule-1 counterexample. -/
def libTab : HighlightLibrary :=
  { books := [bookTab], totalHighlights := 1, lastUpdated := 0 }

/-- A book with two highlights: `floor(2 / 5) = 0`, the degenerate chunk size of
`createBookSummary`. -/
def bookTwo : BookHighlights :=
  { title := str "Tiny", author := none,
    highlights := [hBase, { hBase with location := str "7" }] }

theorem containsSubstr_nil (s : Str) : containsSubstr [] s = true := by
  have h0 : matchAt [] s 0 = true := by simp [matchAt]
  unfold containsSubstr
  rw [List.any_eq_true]
  exact ⟨0, by simp, h0⟩

/-- **C1** (corrected) — counterexample to the claim as stated: on a one-highlight
library, searching with the empty query and default options does not return the
empty sequence. -/
theorem C1_counterexample : searchHighlights libBase [] defaultSearch ≠ [] := by
  decide

/-- **C1** (amended) — for every library, search with the empty query, substring
matching (`wholeWord` unset) and no book or type filters never errors and
returns every highlight of the library (the empty string is a substring of
every content), not the empty sequence. -/
theorem C1_empty_query_returns_all (L : HighlightLibrary) (cs : Bool) :
    searchHighlights L []
      { caseSensitive := cs, wholeWord := false,
        includeBooks := none, excludeBooks := none, highlightTypes := none }
      = allHighlights L := by
  cases cs <;>
    simp [searchHighlights, allHighlights, typePasses, contentMatches, lowerStr,
      containsSubstr_nil]

/-- **C2** (code bug) — on a book with two highlights (any count in 1..4), the
chunk size of `createBookSummary` is `floor(2/5) = 0` and the section loop's
counter `i += 0` stays below the bound after every number of iterations, so the
loop never exits: the guard the claim describes is absent from the code. -/
theorem C2_summary_loop_never_exits :
    bookTwo.highlights.length = 2 ∧
    chapterBreakpoint bookTwo.highlights.length = 0 ∧
    ∀ k, chapterLoopIndex (chapterBreakpoint bookTwo.highlights.length) k
        < bookTwo.highlights.length := by
  refine ⟨rfl, rfl, fun k => ?_⟩
  show chapterLoopIndex 0 k < 2
  simp [chapterLoopIndex]

/-- **C6** (confirmed) — exporting with a format outside
{markdown, csv, json} yields the distinct error `Unsupported export format:
<format>` naming the rejected format, and no output string, for every library
and options. -/
theorem C6_unsupported_format (now : Nat) (L : HighlightLibrary) (format : Str)
    (opts : ExportOptions)
    (h1 : format ≠ str "markdown") (h2 : format ≠ str "csv") (h3 : format ≠ str "json") :
    exportHighlights now L format opts
      = .error (str "Unsupported export format: " ++ format) := by
  unfold exportHighlights
  simp only [beq_iff_eq, if_neg h1, if_neg h2, if_neg h3]

/-- Witness for C6 at the spec's Scenario 6 input `"weird"`. -/
theorem C6_witness :
    exportHighlights 0 emptyLib (str "weird") defaultExport
      = .error (str "Unsupported export format: " ++ str "weird") :=
  C6_unsupported_format 0 emptyLib (str "weird") defaultExport
    (by decide) (by decide) (by decide)

/-- **C7** (confirmed) — parsing the Scenario 1 input yields one book and exactly
one highlight with title `Book Title`, author `Author Name`, type `highlight`,
location `12-13` and content `This is the highlighted text.` (for any date
conversion `pd` and wall clock `now`). -/
theorem C7_scenario1 (pd : Str → Nat) (now : Nat) :
    parseClippings pd now c7input =
      { books := [{ title := str "Book Title", author := some (str "Author Name"),
                    highlights := [{ title := str "Book Title",
                                     author := some (str "Author Name"),
                                     content := str "This is the highlighted text.",
                                     location := str "12-13", page := none,
                                     dateAdded := pd (str "Monday, January 1, 2024 10:00:00 AM"),
                                     type := .highlight, tags := [], userNotes := none }] }],
        totalHighlights := 1, lastUpdated := now } := by
  set_option maxRecDepth 100000 in rfl

theorem wholeWordMatch_imp_containsSubstr (p s : Str)
    (h : wholeWordMatch p s = true) : containsSubstr p s = true := by
  unfold wholeWordMatch at h
  rw [List.any_eq_true] at h
  obtain ⟨i, hi, hp⟩ := h
  unfold containsSubstr
  rw [List.any_eq_true]
  simp only [Bool.and_eq_true] at hp
  exact ⟨i, hi, hp.1.1⟩

/-- **C4** (confirmed) — search monotonicity: with the other options fixed, every
highlight returned with `wholeWord` enabled is also returned by plain substring
search for the same query (a whole-word regular-expression match contains a
literal occurrence of the query). -/
theorem C4_wholeWord_subset (L : HighlightLibrary) (q : Str) (opts : SearchOptions)
    (h : Highlight)
    (hmem : h ∈ searchHighlights L q { opts with wholeWord := true }) :
    h ∈ searchHighlights L q { opts with wholeWord := false } := by
  unfold searchHighlights at hmem ⊢
  simp only [List.mem_flatten, List.mem_map] at hmem ⊢
  obtain ⟨l, ⟨book, hbook, rfl⟩, hl⟩ := hmem
  refine ⟨_, ⟨book, hbook, rfl⟩, ?_⟩
  rw [List.mem_filter] at hl ⊢
  refine ⟨hl.1, ?_⟩
  have hp := hl.2
  simp only [Bool.and_eq_true] at hp ⊢
  refine ⟨hp.1, ?_⟩
  have hcm := hp.2
  unfold contentMatches at hcm ⊢
  simp only [if_true, if_false] at hcm ⊢
  exact wholeWordMatch_imp_containsSubstr _ _ hcm

/-- Witness for C4: a concrete whole-word hit (`cat` in `the cat sat`) is also a
substring hit. -/
theorem C4_witness :
    hBase ∈ searchHighlights libBase (str "cat") { defaultSearch with wholeWord := false } :=
  C4_wholeWord_subset libBase (str "cat") defaultSearch hBase (by decide)

theorem clearTags_autoTagHighlight (tbl : List (Str × List Str)) (h : Highlight) :
    clearTags (autoTagHighlight tbl h) = clearTags h := by
  unfold autoTagHighlight clearTags
  split <;> rfl

theorem listMapCongr {α β : Type} (f g : α → β) (l : List α)
    (h : ∀ a, f a = g a) : l.map f = l.map g := by
  induction l with
  | nil => rfl
  | cons x xs ih => simp only [List.map_cons, h, ih]

/-- **C9** (confirmed) — frame property of the sole mutator: auto-tagging
changes at most the `tags` fields; erasing all tags on both sides gives back
the same library — book count and order, titles, authors, highlight order,
`totalHighlights`, `lastUpdated` and every non-tag highlight field are
untouched.  (The remaining operations — `searchHighlights`, `groupByTags`,
`createBookSummary`, `exportHighlights`, `createFlashcards` — are embedded as
pure functions that only read the library and return derived values.) -/
theorem C9_autoTag_frame (L : HighlightLibrary) (ct : List (Str × List Str)) :
    clearLibTags (autoTagHighlights L ct) = clearLibTags L := by
  unfold clearLibTags autoTagHighlights
  simp only [List.map_map]
  congr 1
  apply listMapCongr
  intro b
  simp only [Function.comp]
  congr 1
  rw [List.map_map]
  apply listMapCongr
  intro h
  exact clearTags_autoTagHighlight _ h

theorem processHighlights_congr (o1 o2 : FlashcardOptions) (b : BookHighlights)
    (hc : ∀ h, cardFor o1.onlyTagged b h = cardFor o2.onlyTagged b h)
    (hm : o1.maxCards = o2.maxCards) :
    ∀ hs acc, processHighlights o1 b acc hs = processHighlights o2 b acc hs := by
  intro hs
  induction hs with
  | nil => intro acc; rfl
  | cons h rest ih =>
    intro acc
    unfold processHighlights
    rw [hc h, hm]
    cases hcf : cardFor o2.onlyTagged b h with
    | none =>
      simp only [hcf]
      exact ih acc
    | some c =>
      simp only [hcf]
      split
      · rfl
      · exact ih (acc ++ [c])

theorem processBooks_congr (o1 o2 : FlashcardOptions)
    (hc : ∀ b h, cardFor o1.onlyTagged b h = cardFor o2.onlyTagged b h)
    (hm : o1.maxCards = o2.maxCards) :
    ∀ bs acc, processBooks o1 acc bs = processBooks o2 acc bs := by
  intro bs
  induction bs with
  | nil => intro acc; rfl
  | cons b rest ih =>
    intro acc
    unfold processBooks
    rw [processHighlights_congr o1 o2 b (hc b) hm, hm]
    dsimp only
    split
    · rfl
    · exact ih _

/-- **C10** (confirmed) — passing an empty array for `includeBooks`,
`excludeBooks` or `highlightTypes` in search, `includeBooks` or `includeTags`
in export, or `onlyTagged` in flashcard generation behaves exactly like
omitting the option (`undefined`): every guard in the source also tests
`length > 0`, so an empty list imposes no restriction instead of filtering
everything out. -/
theorem C10_empty_array_options (L : HighlightLibrary) (q : Str)
    (opts : SearchOptions) (eopts : ExportOptions) (fopts : FlashcardOptions)
    (now : Nat) (format : Str) :
    searchHighlights L q { opts with includeBooks := some [] }
      = searchHighlights L q { opts with includeBooks := none } ∧
    searchHighlights L q { opts with excludeBooks := some [] }
      = searchHighlights L q { opts with excludeBooks := none } ∧
    searchHighlights L q { opts with highlightTypes := some [] }
      = searchHighlights L q { opts with highlightTypes := none } ∧
    exportHighlights now L format { eopts with includeBooks := some [] }
      = exportHighlights now L format { eopts with includeBooks := none } ∧
    exportHighlights now L format { eopts with includeTags := some [] }
      = exportHighlights now L format { eopts with includeTags := none } ∧
    createFlashcards L { fopts with onlyTagged := some [] }
      = createFlashcards L { fopts with onlyTagged := none } := by
  refine ⟨?_, ?_, ?_, rfl, rfl, ?_⟩
  · rfl
  · rfl
  · unfold searchHighlights
    simp only [typePasses]
    rfl
  · unfold createFlashcards
    exact processBooks_congr { fopts with onlyTagged := some [] }
      { fopts with onlyTagged := none } (fun b h => rfl) rfl L.books []

theorem contains_false_not_mem {l : List Str} {a : Str}
    (h : l.contains a = false) : a ∉ l := by
  intro hm
  rw [List.contains_eq_any_beq, Bool.eq_false_iff] at h
  exact h (List.any_eq_true.mpr ⟨a, hm, by simp⟩)

theorem applyTagTable_cons (p : Str × List Str) (rest : List (Str × List Str))
    (cl : Str) (tags : List Str) :
    applyTagTable (p :: rest) cl tags =
      applyTagTable rest cl
        (if p.2.any (fun kw => containsSubstr (lowerStr kw) cl) then
          (if tags.contains p.1 then tags else tags ++ [p.1]) else tags) := rfl

theorem applyTagTable_nodup (tbl : List (Str × List Str)) (cl : Str) :
    ∀ tags : List Str, tags.Nodup → (applyTagTable tbl cl tags).Nodup := by
  induction tbl with
  | nil => intro tags ht; exact ht
  | cons p rest ih =>
    intro tags ht
    rw [applyTagTable_cons]
    apply ih
    split
    · split
      · exact ht
      · next hcon =>
        rw [List.nodup_append]
        refine ⟨ht, List.nodup_singleton _, ?_⟩
        intro x hx hx1
        rw [List.mem_singleton] at hx1
        subst hx1
        exact contains_false_not_mem (Bool.eq_false_iff.mpr hcon) hx
    · exact ht

theorem autoTagHighlight_tagged (tbl : List (Str × List Str)) (h : Highlight)
    (ht : h.tags ≠ []) : autoTagHighlight tbl h = h := by
  unfold autoTagHighlight
  rw [if_pos (List.length_pos.mpr ht)]

theorem autoTagHighlight_idem (tbl : List (Str × List Str)) (h : Highlight) :
    autoTagHighlight tbl (autoTagHighlight tbl h) = autoTagHighlight tbl h := by
  obtain ⟨t, a, c, loc, pg, d, ty, tags, u⟩ := h
  cases tags with
  | cons x xs =>
    unfold autoTagHighlight
    simp
  | nil =>
    unfold autoTagHighlight
    cases hT : applyTagTable tbl (lowerStr c) [] <;> simp [hT]

/-- **C3** (confirmed) — the auto-tagger is idempotent: a second application
with the same custom table is the identity; a highlight with pre-existing tags
is returned untouched; and a freshly tagged highlight's tag list has no
duplicates. -/
theorem C3_autoTag_idempotent (L : HighlightLibrary) (ct : List (Str × List Str)) :
    autoTagHighlights (autoTagHighlights L ct) ct = autoTagHighlights L ct ∧
    (∀ h : Highlight, h.tags ≠ [] → autoTagHighlight (allTags ct) h = h) ∧
    (∀ h : Highlight, h.tags = [] → ((autoTagHighlight (allTags ct) h).tags).Nodup) := by
  refine ⟨?_, fun h ht => autoTagHighlight_tagged _ h ht, fun h ht => ?_⟩
  · unfold autoTagHighlights
    congr 1
    rw [List.map_map]
    apply listMapCongr
    intro b
    simp only [Function.comp]
    congr 1
    rw [List.map_map]
    apply listMapCongr
    intro h2
    exact autoTagHighlight_idem _ h2
  · unfold autoTagHighlight
    rw [if_neg (by simp [ht])]
    show (applyTagTable (allTags ct) (lowerStr h.content) h.tags).Nodup
    rw [ht]
    exact applyTagTable_nodup _ _ [] List.nodup_nil

/-- Witness for C3 at a concrete library with a tagged and an untagged
highlight. -/
theorem C3_witness :
    autoTagHighlights (autoTagHighlights libDemo []) [] = autoTagHighlights libDemo [] ∧
    autoTagHighlight (allTags []) hTagged = hTagged ∧
    ((autoTagHighlight (allTags []) hDemo).tags).Nodup :=
  ⟨(C3_autoTag_idempotent libDemo []).1,
   (C3_autoTag_idempotent libDemo []).2.1 hTagged (by decide),
   (C3_autoTag_idempotent libDemo []).2.2 hDemo (by decide)⟩

theorem listMapCongrMem {α β : Type} (f g : α → β) (l : List α)
    (h : ∀ a ∈ l, f a = g a) : l.map f = l.map g := by
  induction l with
  | nil => rfl
  | cons x xs ih =>
    simp only [List.map_cons]
    rw [h x (by simp), ih (fun a ha => h a (by simp [ha]))]

theorem addToGroups_inv (gs : List BookHighlights) (h : Highlight)
    (hi : GroupsInv gs) : GroupsInv (addToGroups gs h) := by
  obtain ⟨hmem, hnd⟩ := hi
  unfold addToGroups
  split
  · constructor
    · intro b2 hb2 x hx
      rw [List.mem_map] at hb2
      obtain ⟨b, hb, rfl⟩ := hb2
      by_cases hbt : (b.title == h.title) = true
      · rw [if_pos hbt] at hx ⊢
        rw [List.mem_append] at hx
        cases hx with
        | inl hold => exact hmem b hb x hold
        | inr hnew =>
          rw [List.mem_singleton] at hnew
          subst hnew
          exact (beq_iff_eq.mp hbt).symm
      · rw [if_neg hbt] at hx ⊢
        exact hmem b hb x hx
    · have heq : (gs.map (fun b =>
          if b.title == h.title then { b with highlights := b.highlights ++ [h] } else b)).map
            (fun b => b.title) = gs.map (fun b => b.title) := by
        rw [List.map_map]
        apply listMapCongrMem
        intro b _
        simp only [Function.comp]
        split <;> rfl
      rw [heq]
      exact hnd
  · next ha =>
    constructor
    · intro b2 hb2 x hx
      rw [List.mem_append] at hb2
      cases hb2 with
      | inl hold => exact hmem b2 hold x hx
      | inr hnew =>
        rw [List.mem_singleton] at hnew
        subst hnew
        rw [List.mem_singleton] at hx
        subst hx
        rfl
    · rw [List.map_append, List.nodup_append]
      refine ⟨hnd, List.nodup_singleton _, ?_⟩
      intro t ht ht1
      rw [List.map_singleton, List.mem_singleton] at ht1
      subst ht1
      rw [List.mem_map] at ht
      obtain ⟨b, hb, hbt⟩ := ht
      exact ha (List.any_eq_true.mpr ⟨b, hb, beq_iff_eq.mpr hbt⟩)

theorem addToGroups_sum (gs : List BookHighlights) (h : Highlight)
    (hnd : (gs.map (fun b => b.title)).Nodup) :
    sumHighlights (addToGroups gs h) = sumHighlights gs + 1 := by
  induction gs with
  | nil => rfl
  | cons b rest ih =>
    simp only [List.map_cons, List.nodup_cons] at hnd
    obtain ⟨hbt_notin, hnd_rest⟩ := hnd
    unfold addToGroups
    by_cases hbt : (b.title == h.title) = true
    · rw [if_pos (by rw [List.any_cons]; simp [hbt])]
      simp only [List.map_cons, if_pos hbt]
      have hrest : rest.map (fun b2 =>
          if b2.title == h.title then { b2 with highlights := b2.highlights ++ [h] } else b2)
          = rest := by
        have : rest.map (fun b2 =>
            if b2.title == h.title then { b2 with highlights := b2.highlights ++ [h] } else b2)
            = rest.map id := by
          apply listMapCongrMem
          intro b2 hb2
          rw [if_neg]
          · rfl
          · intro hb2t
            apply hbt_notin
            rw [beq_iff_eq] at hbt hb2t
            rw [List.mem_map]
            exact ⟨b2, hb2, by rw [hb2t, hbt]⟩
        rw [this, List.map_id]
      rw [hrest]
      simp [sumHighlights]
      omega
    · rw [List.any_cons]
      by_cases han : (rest.any fun b2 => b2.title == h.title) = true
      · rw [if_pos (by simp [han])]
        simp only [List.map_cons, if_neg hbt]
        have ihres := ih hnd_rest
        unfold addToGroups at ihres
        rw [if_pos han] at ihres
        simp [sumHighlights] at ihres ⊢
        omega
      · rw [if_neg (by simp [hbt, han])]
        simp [sumHighlights]
        omega

theorem addToGroups_mem_preserved (gs : List BookHighlights) (h x : Highlight)
    (hx : ∃ b ∈ gs, x ∈ b.highlights) : ∃ b ∈ addToGroups gs h, x ∈ b.highlights := by
  obtain ⟨b, hb, hxb⟩ := hx
  unfold addToGroups
  split
  · refine ⟨_, List.mem_map_of_mem _ hb, ?_⟩
    by_cases hbt : (b.title == h.title) = true
    · rw [if_pos hbt]
      simp only [List.mem_append]
      exact Or.inl hxb
    · rw [if_neg hbt]
      exact hxb
  · exact ⟨b, by simp [hb], hxb⟩

theorem addToGroups_mem_new (gs : List BookHighlights) (h : Highlight) :
    ∃ b ∈ addToGroups gs h, h ∈ b.highlights := by
  unfold addToGroups
  split
  · next ha =>
    rw [List.any_eq_true] at ha
    obtain ⟨b, hb, hbt⟩ := ha
    refine ⟨_, List.mem_map_of_mem _ hb, ?_⟩
    rw [if_pos hbt]
    simp
  · exact ⟨{ title := h.title, author := h.author, highlights := [h] }, by simp, by simp⟩

theorem foldl_addToGroups_inv (hs : List Highlight) :
    ∀ gs, GroupsInv gs → GroupsInv (hs.foldl addToGroups gs) := by
  induction hs with
  | nil => intro gs hi; exact hi
  | cons h rest ih => intro gs hi; exact ih _ (addToGroups_inv gs h hi)

theorem foldl_addToGroups_sum (hs : List Highlight) :
    ∀ gs, GroupsInv gs →
      sumHighlights (hs.foldl addToGroups gs) = sumHighlights gs + hs.length := by
  induction hs with
  | nil => intro gs _; simp
  | cons h rest ih =>
    intro gs hi
    simp only [List.foldl_cons, List.length_cons]
    rw [ih _ (addToGroups_inv gs h hi), addToGroups_sum gs h hi.2]
    omega

theorem foldl_addToGroups_mem (hs : List Highlight) :
    ∀ gs x, ((∃ b ∈ gs, x ∈ b.highlights) ∨ x ∈ hs) →
      ∃ b ∈ hs.foldl addToGroups gs, x ∈ b.highlights := by
  induction hs with
  | nil =>
    intro gs x hx
    cases hx with
    | inl hold => exact hold
    | inr hmem => cases hmem
  | cons h rest ih =>
    intro gs x hx
    simp only [List.foldl_cons]
    apply ih
    cases hx with
    | inl hold => exact Or.inl (addToGroups_mem_preserved gs h x hold)
    | inr hmem =>
      rw [List.mem_cons] at hmem
      cases hmem with
      | inl hxh => subst hxh; exact Or.inl (addToGroups_mem_new gs x)
      | inr hrest => exact Or.inr hrest

/-- **C5** (confirmed) — extraction invariant: for every raw input (and any date
conversion and wall clock), `totalHighlights` of the parsed library equals the
sum of the per-book highlight counts, and every parsed highlight appears in
exactly one book, whose title equals the highlight's title. -/
theorem C5_extraction_invariant (pd : Str → Nat) (now : Nat) (fc : Str) :
    (parseClippings pd now fc).totalHighlights
      = sumHighlights (parseClippings pd now fc).books ∧
    ∀ h ∈ parsedHighlights pd now fc,
      ∃ b, b ∈ (parseClippings pd now fc).books ∧ h ∈ b.highlights ∧
        b.title = h.title ∧
        ∀ b2, b2 ∈ (parseClippings pd now fc).books → h ∈ b2.highlights → b2 = b := by
  have hinv : GroupsInv ((parsedHighlights pd now fc).foldl addToGroups []) :=
    foldl_addToGroups_inv _ [] ⟨by simp, by simp⟩
  constructor
  · show (parsedHighlights pd now fc).length
        = sumHighlights ((parsedHighlights pd now fc).foldl addToGroups [])
    rw [foldl_addToGroups_sum _ [] ⟨by simp, by simp⟩]
    simp [sumHighlights]
  · intro h hh
    obtain ⟨b, hb, hxb⟩ := foldl_addToGroups_mem (parsedHighlights pd now fc) [] h (Or.inr hh)
    refine ⟨b, hb, hxb, (hinv.1 b hb h hxb).symm, ?_⟩
    intro b2 hb2 hxb2
    exact List.inj_on_of_nodup_map hinv.2 hb2 hb
      ((hinv.1 b2 hb2 h hxb2).symm.trans (hinv.1 b hb h hxb))

/-- Witness for C5 at the Scenario 1 input with the date conversion that sends
every string to `0`. -/
theorem C5_witness :
    (parseClippings (fun _ => 0) 0 c7input).totalHighlights
      = sumHighlights (parseClippings (fun _ => 0) 0 c7input).books ∧
    ∃ b, b ∈ (parseClippings (fun _ => 0) 0 c7input).books ∧
      c7highlight ∈ b.highlights ∧ b.title = c7highlight.title ∧
      ∀ b2, b2 ∈ (parseClippings (fun _ => 0) 0 c7input).books →
        c7highlight ∈ b2.highlights → b2 = b :=
  ⟨(C5_extraction_invariant (fun _ => 0) 0 c7input).1,
   (C5_extraction_invariant (fun _ => 0) 0 c7input).2 c7highlight
     (by set_option maxRecDepth 100000 in decide)⟩

theorem processHighlights_flat (ot : Option (List Str)) (b : BookHighlights) :
    ∀ hs acc, processHighlights ⟨ot, none⟩ b acc hs
      = acc ++ hs.filterMap (cardFor ot b) := by
  intro hs
  induction hs with
  | nil => intro acc; simp [processHighlights]
  | cons h rest ih =>
    intro acc
    unfold processHighlights
    cases hcf : cardFor ot b h with
    | none =>
      simp only [hcf]
      rw [ih acc, List.filterMap_cons, hcf]
    | some c =>
      simp only [hcf]
      rw [if_neg (by simp [maxReached])]
      rw [ih (acc ++ [c]), List.filterMap_cons, hcf]
      simp

theorem processBooks_flat (ot : Option (List Str)) :
    ∀ bs acc, processBooks ⟨ot, none⟩ acc bs
      = acc ++ (bs.map (fun b => b.highlights.filterMap (cardFor ot b))).flatten := by
  intro bs
  induction bs with
  | nil => intro acc; simp [processBooks]
  | cons b rest ih =>
    intro acc
    unfold processBooks
    dsimp only
    rw [processHighlights_flat ot b b.highlights acc]
    rw [if_neg (by simp [maxReached])]
    rw [ih]
    simp

theorem matchAt_is_decomp (s : Str) (j : Nat)
    (hm : matchAt (str " is ") s j = true) :
    ∃ tail, s.drop j = ' ' :: 'i' :: 's' :: ' ' :: tail := by
  unfold matchAt at hm
  rw [beq_iff_eq] at hm
  have hlit : (str " is ").length = 4 := rfl
  rw [hlit] at hm
  refine ⟨(s.drop j).drop 4, ?_⟩
  conv_lhs => rw [← List.take_append_drop 4 (s.drop j)]
  rw [hm]
  rfl

theorem matchAt_are_decomp (s : Str) (j : Nat)
    (hm : matchAt (str " are ") s j = true) :
    ∃ tail, s.drop j = ' ' :: 'a' :: 'r' :: 'e' :: ' ' :: tail := by
  unfold matchAt at hm
  rw [beq_iff_eq] at hm
  have hlit : (str " are ").length = 5 := rfl
  rw [hlit] at hm
  refine ⟨(s.drop j).drop 5, ?_⟩
  conv_lhs => rw [← List.take_append_drop 5 (s.drop j)]
  rw [hm]
  rfl

theorem get?_of_drop (s : Str) (j k : Nat) : s.get? (j + k) = (s.drop j).get? k :=
  (List.get?_drop s j k).symm

theorem isAreMatchAt_of_is (s : Str) (j : Nat)
    (hm : matchAt (str " is ") s j = true) : isAreMatchAt s j = true := by
  obtain ⟨tail, hdrop⟩ := matchAt_is_decomp s j hm
  have hw : wsRunLen s j = 1 := by
    unfold wsRunLen
    rw [hdrop]
    simp [List.takeWhile_cons, show jsWs ' ' = true from rfl,
      show jsWs 'i' = false from rfl]
  have hg0 : s.get? j = some ' ' := by
    have := get?_of_drop s j 0
    rw [hdrop] at this
    simpa using this
  have hg3 : s.get? (j + 3) = some ' ' := by
    have := get?_of_drop s j 3
    rw [hdrop] at this
    simpa using this
  have hmis : matchAt (str "is") s (j + 1) = true := by
    unfold matchAt
    rw [← List.drop_drop, hdrop]
    rfl
  unfold isAreMatchAt
  rw [hw]
  unfold wsAtIdx
  rw [hg0, hmis]
  have : j + 1 + 2 = j + 3 := by omega
  rw [this, hg3]
  simp [show jsWs ' ' = true from rfl]

theorem isAreMatchAt_of_are (s : Str) (j : Nat)
    (hm : matchAt (str " are ") s j = true) : isAreMatchAt s j = true := by
  obtain ⟨tail, hdrop⟩ := matchAt_are_decomp s j hm
  have hw : wsRunLen s j = 1 := by
    unfold wsRunLen
    rw [hdrop]
    simp [List.takeWhile_cons, show jsWs ' ' = true from rfl,
      show jsWs 'a' = false from rfl]
  have hg0 : s.get? j = some ' ' := by
    have := get?_of_drop s j 0
    rw [hdrop] at this
    simpa using this
  have hg4 : s.get? (j + 4) = some ' ' := by
    have := get?_of_drop s j 4
    rw [hdrop] at this
    simpa using this
  have hmare : matchAt (str "are") s (j + 1) = true := by
    unfold matchAt
    rw [← List.drop_drop, hdrop]
    rfl
  unfold isAreMatchAt
  rw [hw]
  unfold wsAtIdx
  rw [hg0, hmare]
  have : j + 1 + 3 = j + 4 := by omega
  rw [this, hg4]
  simp [show jsWs ' ' = true from rfl]

theorem isAreSplitIdx_isSome_of_guard (s : Str)
    (hg : (containsSubstr (str " is ") s || containsSubstr (str " are ") s) = true) :
    ∃ i, isAreSplitIdx s = some i := by
  rw [Bool.or_eq_true] at hg
  have hex : ∃ j, j < s.length ∧ isAreMatchAt s j = true := by
    cases hg with
    | inl his =>
      unfold containsSubstr at his
      rw [List.any_eq_true] at his
      obtain ⟨j, _, hjm⟩ := his
      obtain ⟨tail, hdrop⟩ := matchAt_is_decomp s j hjm
      have hlen : (s.drop j).length = tail.length + 4 := by rw [hdrop]; rfl
      rw [List.length_drop] at hlen
      exact ⟨j, by omega, isAreMatchAt_of_is s j hjm⟩
    | inr hare =>
      unfold containsSubstr at hare
      rw [List.any_eq_true] at hare
      obtain ⟨j, _, hjm⟩ := hare
      obtain ⟨tail, hdrop⟩ := matchAt_are_decomp s j hjm
      have hlen : (s.drop j).length = tail.length + 5 := by rw [hdrop]; rfl
      rw [List.length_drop] at hlen
      exact ⟨j, by omega, isAreMatchAt_of_are s j hjm⟩
  obtain ⟨j, hjlt, hjm⟩ := hex
  have : (isAreSplitIdx s).isSome := by
    unfold isAreSplitIdx
    rw [List.find?_isSome]
    exact ⟨j, by simpa using hjlt, hjm⟩
  exact Option.isSome_iff_exists.mp this

theorem cardFor_rule1 (b : BookHighlights) (h : Highlight)
    (hg : (containsSubstr (str " is ") h.content
      || containsSubstr (str " are ") h.content) = true)
    (hlen : 5 ≤ (splitChar ' ' h.content).length) :
    cardFor none b h = some (rule1Card b h) := by
  obtain ⟨i, hi⟩ := isAreSplitIdx_isSome_of_guard h.content hg
  unfold cardFor
  dsimp only
  rw [if_neg (by simp), if_neg (by omega)]
  unfold generateQuestion
  rw [if_pos hg]
  unfold rule1Question
  rw [hi]
  rw [if_pos (by simp [str])]
  unfold rule1Card
  rw [hi]
  rfl

/-- **C8** (amended) — rule 1 of the flashcard generator: for every highlight of
the library whose content contains `" is "` or `" are "` and splits into at
least 5 space-separated tokens, `createFlashcards` with default options
produces the card whose question is `What is <text before the first
whitespace-delimited `is`/`are` (the `\s+is\s+|\s+are\s+` split of the source),
trimmed>?` and whose answer is the full original content. -/
theorem C8_rule1_flashcard (L : HighlightLibrary) (b : BookHighlights) (h : Highlight)
    (hb : b ∈ L.books) (hh : h ∈ b.highlights)
    (hg : (containsSubstr (str " is ") h.content
      || containsSubstr (str " are ") h.content) = true)
    (hlen : 5 ≤ (splitChar ' ' h.content).length) :
    rule1Card b h ∈ createFlashcards L defaultFlashcards := by
  unfold createFlashcards
  rw [show defaultFlashcards = ⟨none, none⟩ from rfl]
  rw [processBooks_flat none L.books []]
  simp only [List.nil_append, List.mem_flatten, List.mem_map]
  refine ⟨_, ⟨b, hb, rfl⟩, ?_⟩
  rw [List.mem_filterMap]
  exact ⟨h, hh, cardFor_rule1 b h hg hlen⟩

/-- Witness for C8 at the spec's Scenario 5 content, whose generated question is
`What is Gravity?` and whose answer is the whole content. -/
theorem C8_witness :
    rule1Card bookGravity hGravity ∈ createFlashcards libGravity defaultFlashcards ∧
    rule1Card bookGravity hGravity =
      { question := str "What is Gravity?",
        answer := str "Gravity is the force that attracts objects",
        source := str "B by A" } :=
  ⟨C8_rule1_flashcard libGravity bookGravity hGravity
      (by decide) (by decide) (by decide) (by decide),
   by decide⟩

/-- **C8** — counterexample to the claim as literally stated: for the content
`"Alpha\tare beta x is y"` (which contains `" is "` and has 5 space-separated
tokens) the claim requires the question `What is Alpha\tare beta x?` — the text
before the first occurrence of `" is "` or `" are "` — but the source splits on
`\s+is\s+|\s+are\s+`, whose leftmost match is the tab-delimited `are`, so the
only card generated asks `What is Alpha?`. -/
theorem C8_counterexample :
    containsSubstr (str " is ") hTab.content = true ∧
    5 ≤ (splitChar ' ' hTab.content).length ∧
    (createFlashcards libTab defaultFlashcards).map (fun c => c.question)
      = [str "What is Alpha?"] ∧
    ∀ c ∈ createFlashcards libTab defaultFlashcards,
      c.question ≠ str "What is Alpha\tare beta x?" := by
  decide
